import Mathlib

/-!
Verification of the NowledgeBase category / note / link consistency engine
(`src-tauri/src/services`).

Shallow embedding conventions:
* Rust `String` data is modelled at character level (`List Char` for the
  title-derivation algorithm, plain `String` for identifiers and names);
  Rust byte indices and byte lengths coincide with character indices for
  ASCII content.
* `chrono::DateTime<Utc>` values are modelled as integers (the engine only
  copies them, compares to the epoch sentinel, or injects a fresh "now").
* `f64` / `f32` coordinates and confidences are modelled as integers: no
  claim depends on real arithmetic, only on storage and copying.
* The persisted store (`notes.json`, `categories.json`, `note_links.json`)
  is modelled as a `StoreState` of three optional typed documents; a
  missing document models a file that was never written.  A present
  document always parses (the application itself only writes well-formed
  current-schema files); the general multi-schema decoding of the notes
  file is modelled separately at a JSON level for the migration claims.
-/

namespace KB

/-! ### Character-level helpers (Rust `str` operations) -/

def trimLeft (s : List Char) : List Char := s.dropWhile Char.isWhitespace

def trimRight (s : List Char) : List Char :=
  (s.reverse.dropWhile Char.isWhitespace).reverse

/-- Rust `str::trim` (exact for ASCII whitespace). -/
def trimChars (s : List Char) : List Char := trimLeft (trimRight s)

def strTrim (s : String) : String := ⟨trimChars s.data⟩

/-- Rust `str::find(pat)`: index of the first occurrence of `pat`. -/
def findSubIdx (pat : List Char) : List Char → Option Nat
  | [] => if pat.isEmpty then some 0 else none
  | c :: rest =>
    if pat.isPrefixOf (c :: rest) then some 0
    else (findSubIdx pat rest).map (· + 1)

/-- Rust `str::rfind(' ')`: index of the last space. -/
def lastSpaceIdx : List Char → Option Nat
  | [] => none
  | c :: rest =>
    match lastSpaceIdx rest with
    | some j => some (j + 1)
    | none => if c = ' ' then some 0 else none

/-- Rust `content.lines().next().unwrap_or("")`: the text up to the first
newline, with a carriage return stripped when the line was `\r\n`
terminated.  (For trimmed input a trailing `\r` can only occur before a
newline, so stripping it unconditionally is faithful.) -/
def firstLineOf (s : List Char) : List Char :=
  let l := s.takeWhile (fun c => c != '\n')
  if l.getLast? = some '\r' then l.dropLast else l

def qMark : List Char := "Q:".data

def aMark : List Char := "\n\nA:".data

def dots : List Char := "...".data

/-! ### Title derivation (`ai_service::generate_simple_title`) -/

/-- Embedding of `generate_simple_title` from `services/ai_service.rs`:
trims the content, extracts the question of a `Q:`/`\n\nA:` pair, else the
first short line, else truncates at 50 characters preferring a word
boundary past index 30. -/
def generate_simple_title_chars (raw : List Char) : List Char :=
  let content := trimChars raw
  if qMark.isPrefixOf content && (findSubIdx aMark content).isSome then
    let qe := (findSubIdx aMark content).getD 0
    let question := trimChars ((content.drop 2).take (qe - 2))
    if question.length ≤ 50 then question
    else question.take 47 ++ dots
  else
    let first_line := trimChars (firstLineOf content)
    if first_line != [] && first_line.length ≤ 60 && !(qMark.isPrefixOf first_line) then
      first_line
    else
      if content.length > 50 then
        let truncated := content.take 50
        match lastSpaceIdx truncated with
        | some last_space =>
          if last_space > 30 then truncated.take last_space ++ dots
          else truncated ++ dots
        | none => truncated ++ dots
      else content

def generate_simple_title (s : String) : String :=
  ⟨generate_simple_title_chars s.data⟩

/-- The title rule exactly as the specification words it (claim C9): no
trimming anywhere — the raw content is inspected, the raw substring
between `Q:` and the first `\n\nA:` is used, the raw first line is used.
Written for comparison with `generate_simple_title_chars`. -/
def simple_title_claim (content : List Char) : List Char :=
  if qMark.isPrefixOf content && (findSubIdx aMark content).isSome then
    let qe := (findSubIdx aMark content).getD 0
    let question := (content.drop 2).take (qe - 2)
    if question.length ≤ 50 then question
    else question.take 47 ++ dots
  else
    let first_line := firstLineOf content
    if first_line != [] && first_line.length ≤ 60 && !(qMark.isPrefixOf first_line) then
      first_line
    else
      if content.length ≤ 50 then content
      else
        let truncated := content.take 50
        match lastSpaceIdx truncated with
        | some last_space =>
          if last_space > 30 then truncated.take last_space ++ dots
          else truncated ++ dots
        | none => truncated ++ dots

/-! ### Data model (`models/note.rs`, `models/category.rs`, `models/link.rs`) -/

structure GraphPosition where
  x : Int
  y : Int
  z_index : Option Int
deriving DecidableEq

structure Note where
  id : String
  title : String
  content : String
  category_path : List String
  timestamp : Int
  tags : List String
  ai_confidence : Option Int
  position : Option GraphPosition
deriving DecidableEq

structure NotesDatabase where
  notes : List Note
deriving DecidableEq

structure Category where
  id : String
  name : String
  parent_id : Option String
  full_path : String
  path : List String
  level : Nat
  note_count : Nat
  created_at : Int
  color : Option String
deriving DecidableEq

structure CategoriesDatabase where
  categories : List Category
deriving DecidableEq

inductive LinkType where
  | Related
  | Reference
  | FollowUp
  | Contradicts
  | Supports
  | Custom (s : String)
deriving DecidableEq

inductive LinkColor where
  | Purple
  | Yellow
deriving DecidableEq

structure NoteLink where
  id : String
  source_id : String
  target_id : String
  link_type : LinkType
  label : Option String
  color : Option LinkColor
  directional : Option Bool
  created_at : Int
deriving DecidableEq

structure LinksDatabase where
  links : List NoteLink
deriving DecidableEq

instance : Inhabited Note :=
  ⟨{ id := "", title := "", content := "", category_path := [],
     timestamp := 0, tags := [], ai_confidence := none, position := none }⟩

instance : Inhabited Category :=
  ⟨{ id := "", name := "", parent_id := none, full_path := "", path := [],
     level := 0, note_count := 0, created_at := 0, color := none }⟩

/-! ### JSON documents and the multi-schema notes decode
(`note_service::load_notes`, parse part).

Datetimes inside documents are modelled as JSON numbers; the external
`serde`/`chrono` string format is irrelevant to the migration logic. -/

inductive Json where
  | null
  | bool (b : Bool)
  | num (n : Int)
  | str (s : String)
  | arr (items : List Json)
  | obj (fields : List (String × Json))

/-- serde_json `Value::get` on an object: lookup by key (no key occurs
twice in documents the application writes). -/
def Json.getField : Json → String → Option Json
  | .obj fs, key => fs.lookup key
  | _, _ => none

def asStr : Json → Option String
  | .str s => some s
  | _ => none

def asNum : Json → Option Int
  | .num n => some n
  | _ => none

def asJsonArr : Json → Option (List Json)
  | .arr xs => some xs
  | _ => none

def asStrList (j : Json) : Option (List String) :=
  (asJsonArr j).bind (fun xs => xs.mapM asStr)

/-- serde decode of an `Option<T>` struct field: missing or `null` is
`None`; a present non-null value must decode. -/
def optField (j : Json) (key : String) (dec : Json → Option α) : Option (Option α) :=
  match j.getField key with
  | none => some none
  | some Json.null => some none
  | some v => (dec v).map some

def asPosition (j : Json) : Option GraphPosition := do
  let x ← (j.getField "x").bind asNum
  let y ← (j.getField "y").bind asNum
  let z ← optField j "z_index" asNum
  pure { x := x, y := y, z_index := z }

/-- serde decode of the current `Note` schema (unknown fields ignored,
`Option` fields defaulting to `None`). -/
def decodeNote (j : Json) : Option Note := do
  let id ← (j.getField "id").bind asStr
  let title ← (j.getField "title").bind asStr
  let content ← (j.getField "content").bind asStr
  let category_path ← (j.getField "category_path").bind asStrList
  let timestamp ← (j.getField "timestamp").bind asNum
  let tags ← (j.getField "tags").bind asStrList
  let ai_confidence ← optField j "ai_confidence" asNum
  let position ← optField j "position" asPosition
  pure { id := id, title := title, content := content, category_path := category_path,
         timestamp := timestamp, tags := tags, ai_confidence := ai_confidence,
         position := position }

/-- serde decode of the current `NotesDatabase` schema. -/
def decodeNotesDb (j : Json) : Option (List Note) := do
  let xs ← (j.getField "notes").bind asJsonArr
  xs.mapM decodeNote

/-- serde decode of `OldNoteWithPath` (`category_path` but no `title`,
no `position`), already migrated to a current `Note` as the code does:
title derived by the simple rule, position absent. -/
def decodeOldNoteWithPath (j : Json) : Option Note := do
  let id ← (j.getField "id").bind asStr
  let content ← (j.getField "content").bind asStr
  let category_path ← (j.getField "category_path").bind asStrList
  let timestamp ← (j.getField "timestamp").bind asNum
  let tags ← (j.getField "tags").bind asStrList
  let ai_confidence ← optField j "ai_confidence" asNum
  pure { id := id, title := generate_simple_title content, content := content,
         category_path := category_path, timestamp := timestamp, tags := tags,
         ai_confidence := ai_confidence, position := none }

/-- serde decode of the oldest `OldNote` schema (single `category`
string), already migrated to a current `Note` as the code does: one
element path, derived title, confidence absent. -/
def decodeOldNote (j : Json) : Option Note := do
  let id ← (j.getField "id").bind asStr
  let content ← (j.getField "content").bind asStr
  let category ← (j.getField "category").bind asStr
  let timestamp ← (j.getField "timestamp").bind asNum
  let tags ← (j.getField "tags").bind asStrList
  pure { id := id, title := generate_simple_title content, content := content,
         category_path := [category], timestamp := timestamp, tags := tags,
         ai_confidence := none, position := none }

/-- serde decode of the whole document under the oldest schema
(`OldNotesDatabase`), migrated element-wise. -/
def decodeOldNotesDb (j : Json) : Option (List Note) := do
  let xs ← (j.getField "notes").bind asJsonArr
  xs.mapM decodeOldNote

/-- `load_notes` title backfill for a decoded current-schema note. -/
def backfillNote (n : Note) : Note :=
  if n.title = "" then { n with title := generate_simple_title n.content } else n

/-- The per-element migration of the code's second attempt:
`OldNoteWithPath` first, then `OldNote`; elements matching neither are
dropped by the surrounding loop. -/
def migrateElem (v : Json) : Option Note :=
  (decodeOldNoteWithPath v).orElse (fun _ => decodeOldNote v)

/-- Embedding of the parsing part of `note_service::load_notes` on an
already-lexed JSON document: current schema first (with empty-title
backfill); else any document with a top-level `notes` array, migrating
elements that match either old schema and dropping the rest; else the
strict oldest-schema decode; else the parse error.  The returned flag
records whether the decoded collection was immediately persisted. -/
def load_notes_from_json (j : Json) : Except String (NotesDatabase × Bool) :=
  match decodeNotesDb j with
  | some notes =>
    .ok (⟨notes.map backfillNote⟩, notes.any (fun n => n.title == ""))
  | none =>
    match (j.getField "notes").bind asJsonArr with
    | some xs => .ok (⟨xs.filterMap migrateElem⟩, true)
    | none =>
      match decodeOldNotesDb j with
      | some old => .ok (⟨old⟩, true)
      | none => .error "Failed to parse notes file (old or new format)"

/-- serde decode of the whole document under claim C2's second schema:
every element must be an `OldNoteWithPath`. -/
def decodeOldDbWithPath (j : Json) : Option (List Note) := do
  let xs ← (j.getField "notes").bind asJsonArr
  xs.mapM decodeOldNoteWithPath

/-- The note-collection load exactly as claim C2 words it: three whole
document decoders attempted in order — current schema, the
`category_path`-without-`title` schema, the oldest single-`category`
schema — first success preserving every decoded note, `CorruptStore`
exactly when all three fail. -/
def load_notes_claim (j : Json) : Except String (NotesDatabase × Bool) :=
  match decodeNotesDb j with
  | some notes =>
    .ok (⟨notes.map backfillNote⟩, notes.any (fun n => n.title == ""))
  | none =>
    match decodeOldDbWithPath j with
    | some notes => .ok (⟨notes⟩, true)
    | none =>
      match decodeOldNotesDb j with
      | some notes => .ok (⟨notes⟩, true)
      | none => .error "Failed to parse notes file (old or new format)"

/-! ### Claim C2: multi-schema load -/

def corruptDoc : Json := .obj [("notes", .arr [.obj []])]

/-- C2 counterexample: on the document with a `notes` array whose single
element matches none of the three schemas, the claim's rule fails with
`CorruptStore`, but the code's second attempt accepts any document with a
`notes` array, silently drops the unparseable element, and returns (and
persists) an empty collection. -/
theorem C2_counterexample :
    load_notes_claim corruptDoc = .error "Failed to parse notes file (old or new format)" ∧
      load_notes_from_json corruptDoc = .ok (⟨[]⟩, true) := by
  exact ⟨rfl, rfl⟩

/-- C2 (amended): loading tries the current schema first (backfilling
empty titles, persisting exactly when one was backfilled); when that
fails, any document with a top-level `notes` array succeeds, migrating
each element that parses as the `category_path`-without-`title` schema
or, failing that, the oldest single-`category` schema, dropping elements
matching neither, persisting immediately; the strict oldest-schema
document decode is attempted last but can never succeed where the second
attempt failed; the load fails with `CorruptStore` exactly when the
document has no top-level `notes` array (and the current schema failed). -/
theorem C2_load_migration (j : Json) :
    (∀ notes, decodeNotesDb j = some notes →
      load_notes_from_json j =
        .ok (⟨notes.map backfillNote⟩, notes.any (fun n => n.title == ""))) ∧
    (decodeNotesDb j = none → ∀ xs, (j.getField "notes").bind asJsonArr = some xs →
      load_notes_from_json j = .ok (⟨xs.filterMap migrateElem⟩, true)) ∧
    ((j.getField "notes").bind asJsonArr = none →
      load_notes_from_json j = .error "Failed to parse notes file (old or new format)") ∧
    ((j.getField "notes").bind asJsonArr = none → decodeOldNotesDb j = none) := by
  have hfac : ∀ h : (j.getField "notes").bind asJsonArr = none, decodeNotesDb j = none := by
    intro h
    simp only [decodeNotesDb, bind, h]
    rfl
  have hfac2 : ∀ h : (j.getField "notes").bind asJsonArr = none, decodeOldNotesDb j = none := by
    intro h
    simp only [decodeOldNotesDb, bind, h]
    rfl
  refine ⟨?_, ?_, ?_, hfac2⟩
  · intro notes h
    simp only [load_notes_from_json, h]
  · intro h xs hxs
    simp only [load_notes_from_json, h, hxs]
  · intro h
    simp only [load_notes_from_json, hfac h, h, hfac2 h]

def oldDoc : Json :=
  .obj [("notes", .arr [.obj [("id", .str "n1"), ("content", .str "hello"),
    ("category", .str "General"), ("timestamp", .num 5), ("tags", .arr [])]])]

/-- C2 witness: the amended load applied to a document in the oldest
schema, which the second (tolerant) attempt migrates. -/
theorem C2_load_migration_witness :
    load_notes_from_json oldDoc =
      .ok (⟨[{ id := "n1", title := "hello", content := "hello",
               category_path := ["General"], timestamp := 5, tags := [],
               ai_confidence := none, position := none }]⟩, true) := by
  have h := (C2_load_migration oldDoc).2.1 (by rfl) _ (by rfl)
  exact h.trans (by rfl)

/-! ### The persisted store and the service operations

Each operation takes the store and returns its result together with the
store after all writes; fresh UUIDs and the current time are passed in as
parameters.  A present document is typed (the parse of a file the
application wrote always succeeds); `none` models a file that was never
written, whose read fails. -/

structure StoreState where
  notesFile : Option NotesDatabase
  categoriesFile : Option CategoriesDatabase
  linksFile : Option LinksDatabase
deriving DecidableEq

def joinArrow (path : List String) : String := String.intercalate " → " path

/-- The per-category migration step of `category_service::load_categories`:
backfill an empty `full_path` from `path`; recompute `level` only when it
is `0` while the path has more than one segment. -/
def migrateCategory (c : Category) : Category :=
  let c1 := if c.full_path = "" then { c with full_path := joinArrow c.path } else c
  if c1.level = 0 && c1.path.length > 1 then { c1 with level := c1.path.length - 1 } else c1

def categoryNeedsMigration (c : Category) : Bool :=
  c.full_path == "" || (c.level == 0 && c.path.length > 1)

/-- Embedding of `category_service::load_categories`: a missing file is
initialized to the empty collection and persisted; otherwise the loaded
categories are migrated and persisted exactly when some record fired a
migration rule. -/
def load_categories (s : StoreState) : CategoriesDatabase × StoreState :=
  match s.categoriesFile with
  | none => (⟨[]⟩, { s with categoriesFile := some ⟨[]⟩ })
  | some db =>
    let migrated : CategoriesDatabase := ⟨db.categories.map migrateCategory⟩
    if db.categories.any categoryNeedsMigration then
      (migrated, { s with categoriesFile := some migrated })
    else
      (migrated, s)

/-- Embedding of `note_service::load_notes` on the typed store (a present
file is a current-schema document; the JSON-level multi-schema decode is
`load_notes_from_json`): a missing file yields the empty collection
without persisting; empty titles are backfilled and the collection
persisted exactly when one was. -/
def load_notes (s : StoreState) : NotesDatabase × StoreState :=
  match s.notesFile with
  | none => (⟨[]⟩, s)
  | some db =>
    let migrated : NotesDatabase := ⟨db.notes.map backfillNote⟩
    if db.notes.any (fun n => n.title == "") then
      (migrated, { s with notesFile := some migrated })
    else
      (migrated, s)

/-- One step of the counting loop of
`category_service::update_category_note_counts`: bump every category whose
path is a prefix of the note's path. -/
def bumpCounts (cats : List Category) (note : Note) : List Category :=
  cats.map (fun c =>
    if c.path.isPrefixOf note.category_path then { c with note_count := c.note_count + 1 }
    else c)

/-- Embedding of `category_service::update_category_note_counts`: reads
the notes file directly (failing when it was never written), loads the
categories, resets every count to zero, counts prefix-matching notes, and
persists the categories. -/
def update_category_note_counts (s : StoreState) : Except String Unit × StoreState :=
  match s.notesFile with
  | none => (.error "Failed to read notes file", s)
  | some ndb =>
    let p := load_categories s
    let reset := p.1.categories.map (fun c => { c with note_count := 0 })
    let counted := ndb.notes.foldl bumpCounts reset
    (.ok (), { p.2 with categoriesFile := some ⟨counted⟩ })

/-- Embedding of `category_service::safe_delete_category`: reads the notes
file directly, finds the category by id, drops every note and category
whose path extends the target's path, persists both collections, then
recounts. -/
def safe_delete_category (category_id : String) (s : StoreState) :
    Except String Unit × StoreState :=
  let p := load_categories s
  match p.2.notesFile with
  | none => (.error "Failed to read notes file", p.2)
  | some ndb =>
    match p.1.categories.find? (fun c => c.id == category_id) with
    | none => (.error "Category not found", p.2)
    | some target =>
      let notes2 := ndb.notes.filter (fun n => !(target.path.isPrefixOf n.category_path))
      let cats2 := p.1.categories.filter (fun c => !(target.path.isPrefixOf c.path))
      update_category_note_counts
        { p.2 with categoriesFile := some ⟨cats2⟩, notesFile := some ⟨notes2⟩ }

/-- Embedding of `category_service::rebuild_hierarchy`: recompute `level`
and `full_path` from `path` for every category, backfill an epoch
`created_at` with the current time, persist, then recount.  (The Rust
`path.len() as u32 - 1` underflows on an empty path; `Nat` subtraction
stands in for it, and no claim touches empty paths here.) -/
def rebuild_hierarchy (now : Int) (s : StoreState) : Except String Unit × StoreState :=
  let p := load_categories s
  let cats2 := p.1.categories.map (fun c =>
    let c1 := { c with level := c.path.length - 1, full_path := joinArrow c.path }
    if c1.created_at = 0 then { c1 with created_at := now } else c1)
  update_category_note_counts { p.2 with categoriesFile := some ⟨cats2⟩ }

/-- Embedding of `category_service::create_category_safe`. -/
def create_category_safe (name : String) (parent_path : Option (List String))
    (newId : String) (now : Int) (s : StoreState) : Except String Category × StoreState :=
  let p := load_categories s
  let full_path := (parent_path.getD []) ++ [name]
  if full_path.length > 1 &&
      !(p.1.categories.any (fun c => c.path == full_path.take (full_path.length - 1))) then
    (.error "Parent category does not exist", p.2)
  else if p.1.categories.any (fun c => c.path == full_path) then
    (.error "Category with path already exists", p.2)
  else
    let parent_id :=
      if full_path.length > 1 then
        (p.1.categories.find? (fun c => c.path == full_path.take (full_path.length - 1))).map
          (fun c => c.id)
      else none
    let cat : Category :=
      { id := newId, name := name, parent_id := parent_id,
        full_path := joinArrow full_path, path := full_path,
        level := full_path.length - 1, note_count := 0, created_at := now, color := none }
    (.ok cat, { p.2 with categoriesFile := some ⟨p.1.categories ++ [cat]⟩ })

/-- Embedding of `category_service::rename_category`: replace the last
path segment of the category found by id, rewrite strictly longer
prefix-matching category paths and all prefix-matching note paths, and
persist both collections.  (The Rust code indexes `path.len() - 1` and
panics on an empty path; `List.set` at `Nat` index `0 - 1 = 0` stands in,
and every theorem below assumes the path non-empty.) -/
def rename_category (category_id new_name : String) (s : StoreState) :
    Except String Unit × StoreState :=
  let pc := load_categories s
  let pn := load_notes pc.2
  match pc.1.categories.findIdx? (fun c => c.id == category_id) with
  | none => (.error "Category not found", pn.2)
  | some i =>
    let target := pc.1.categories.getD i default
    let old_path := target.path
    let new_path := old_path.set (old_path.length - 1) new_name
    let utarget :=
      { target with
        name := new_name,
        path := new_path,
        full_path := joinArrow new_path }
    let cats1 := (pc.1.categories.set i utarget).map (fun c =>
      if old_path.isPrefixOf c.path && decide (old_path.length < c.path.length) then
        { c with
          path := new_path ++ c.path.drop old_path.length,
          full_path := joinArrow (new_path ++ c.path.drop old_path.length) }
      else c)
    let notes1 := pn.1.notes.map (fun n =>
      if old_path.isPrefixOf n.category_path then
        { n with category_path := new_path ++ n.category_path.drop old_path.length }
      else n)
    (.ok (), { pn.2 with categoriesFile := some ⟨cats1⟩, notesFile := some ⟨notes1⟩ })

/-- The title used by the update operations when no usable custom title is
given: the external title-generation collaborator for contents longer
than 20 characters (its outcome passed in as `ai`, `none` modelling any
failure, which falls back to the simple rule), the trimmed content
otherwise. -/
def resolveGeneratedTitle (ai : String → Option String) (content : String) : String :=
  if content.length > 20 then (ai content).getD (generate_simple_title content)
  else strTrim content

/-- The full title resolution of `update_note_with_title`: a non-empty
trimmed custom title wins, else the generated title. -/
def resolveUpdateTitle (ai : String → Option String) (content : String)
    (title : Option String) : String :=
  match title with
  | some t => if strTrim t = "" then resolveGeneratedTitle ai content else strTrim t
  | none => resolveGeneratedTitle ai content

/-- Embedding of `note_service::update_note_with_title`. -/
def update_note_with_title (ai : String → Option String) (id content : String)
    (title : Option String) (s : StoreState) : Except String Note × StoreState :=
  let pn := load_notes s
  match pn.1.notes.findIdx? (fun n => n.id == id) with
  | none => (.error "Note not found", pn.2)
  | some i =>
    let old := pn.1.notes.getD i default
    let updated :=
      { old with
        content := content,
        title := resolveUpdateTitle ai content title }
    let s2 := { pn.2 with notesFile := some ⟨pn.1.notes.set i updated⟩ }
    let rc := update_category_note_counts s2
    match rc.1 with
    | .error e => (.error e, rc.2)
    | .ok _ => (.ok updated, rc.2)

/-- Embedding of `note_service::update_note` (no custom title). -/
def update_note (ai : String → Option String) (id content : String) (s : StoreState) :
    Except String Note × StoreState :=
  let pn := load_notes s
  match pn.1.notes.findIdx? (fun n => n.id == id) with
  | none => (.error "Note not found", pn.2)
  | some i =>
    let old := pn.1.notes.getD i default
    let updated :=
      { old with
        content := content,
        title := resolveGeneratedTitle ai content }
    let s2 := { pn.2 with notesFile := some ⟨pn.1.notes.set i updated⟩ }
    let rc := update_category_note_counts s2
    match rc.1 with
    | .error e => (.error e, rc.2)
    | .ok _ => (.ok updated, rc.2)

/-- Embedding of `storage_service::load_links`: a missing file is
initialized to the empty collection and persisted. -/
def load_links (s : StoreState) : LinksDatabase × StoreState :=
  match s.linksFile with
  | none => (⟨[]⟩, { s with linksFile := some ⟨[]⟩ })
  | some db => (db, s)

/-- `link_service`: map the link type string to the enumeration, anything
unrecognized becoming `Custom` with the original string. -/
def parseLinkType (t : String) : LinkType :=
  if t = "Related" then .Related
  else if t = "Reference" then .Reference
  else if t = "FollowUp" then .FollowUp
  else if t = "Contradicts" then .Contradicts
  else if t = "Supports" then .Supports
  else .Custom t

/-- Rust `std::mem::discriminant` equality on `LinkType`: variant tags
only — the payload of `Custom` is ignored. -/
def sameVariant : LinkType → LinkType → Bool
  | .Related, .Related => true
  | .Reference, .Reference => true
  | .FollowUp, .FollowUp => true
  | .Contradicts, .Contradicts => true
  | .Supports, .Supports => true
  | .Custom _, .Custom _ => true
  | _, _ => false

def parseLinkColor (c : Option String) : Option LinkColor :=
  c.bind (fun x =>
    if x = "purple" then some .Purple
    else if x = "yellow" then some .Yellow
    else none)

/-- Embedding of `link_service::create_note_link_with_options`. -/
def create_note_link_with_options (source_id target_id link_type : String)
    (label : Option String) (color : Option String) (directional : Option Bool)
    (newId : String) (now : Int) (s : StoreState) : Except String NoteLink × StoreState :=
  let pn := load_notes s
  if !(pn.1.notes.any (fun n => n.id == source_id)) then
    (.error ("Source note with id " ++ source_id ++ " not found"), pn.2)
  else if !(pn.1.notes.any (fun n => n.id == target_id)) then
    (.error ("Target note with id " ++ target_id ++ " not found"), pn.2)
  else
    let parsed := parseLinkType link_type
    let pl := load_links pn.2
    if pl.1.links.any (fun l =>
        ((l.source_id == source_id && l.target_id == target_id) ||
         (l.source_id == target_id && l.target_id == source_id)) &&
        sameVariant l.link_type parsed) then
      (.error "Link of this type already exists between these notes", pl.2)
    else
      let new_link : NoteLink :=
        { id := newId, source_id := source_id, target_id := target_id,
          link_type := parsed, label := label, color := parseLinkColor color,
          directional := directional, created_at := now }
      (.ok new_link, { pl.2 with linksFile := some ⟨pl.1.links ++ [new_link]⟩ })

/-! ### Claim C3: repair operations on the fresh store -/

def freshStore : StoreState := ⟨none, none, none⟩

/-- C3: the repair operations are NOT safe on every reachable state.
`update_category_note_counts` (and hence `rebuild_hierarchy`, which ends
by calling it) reads `notes.json` directly with `fs::read_to_string`
instead of going through the missing-file-tolerant `load_notes`, so on a
fresh store — reachable by simply never saving a note — both repair
operations fail with a read error, where the claim (and §5 of the
specification) requires them to succeed. -/
theorem C3_repair_fails_on_fresh_store :
    (update_category_note_counts freshStore).1 = .error "Failed to read notes file" ∧
      (rebuild_hierarchy 7 freshStore).1 = .error "Failed to read notes file" := by
  exact ⟨rfl, rfl⟩

/-! ### Claim C4: category-collection load migration -/

/-- The per-category migration as claim C4 must be amended: `full_path`
is recomputed when empty (missing), but `level` is recomputed only when
it is `0` while the path has more than one segment — a nonzero
inconsistent `level` is left alone. -/
def migrateCategorySpec (c : Category) : Category :=
  { c with
    full_path := if c.full_path = "" then joinArrow c.path else c.full_path,
    level := if c.level = 0 ∧ c.path.length > 1 then c.path.length - 1 else c.level }

theorem migrateCategory_eq_spec (c : Category) :
    migrateCategory c = migrateCategorySpec c := by
  cases c with
  | mk id name parent_id full_path path level note_count created_at color =>
    simp only [migrateCategory, migrateCategorySpec]
    by_cases h1 : full_path = "" <;> by_cases h2 : level = 0 ∧ path.length > 1 <;>
      simp [h1, h2]

def c4cat : Category :=
  { id := "c", name := "B", parent_id := none, full_path := "A → B",
    path := ["A", "B"], level := 5, note_count := 0, created_at := 1, color := none }

/-- C4 counterexample: a category whose `level` (5) is inconsistent with
its two-segment path (which demands level 1) is loaded unchanged and
nothing is persisted — the code only repairs a `level` that is exactly
`0` with a longer-than-one path. -/
theorem C4_counterexample :
    (load_categories ⟨none, some ⟨[c4cat]⟩, none⟩).1 = ⟨[c4cat]⟩ ∧
      (load_categories ⟨none, some ⟨[c4cat]⟩, none⟩).2 = ⟨none, some ⟨[c4cat]⟩, none⟩ ∧
      c4cat.level ≠ c4cat.path.length - 1 := by
  decide

/-- C4 (amended): on category-collection load, every category whose
cached `full_path` is empty gets it recomputed as the path joined by
" → ", and every category whose `level` is `0` while its path has more
than one segment gets `level` recomputed as the path length minus one;
the migrated collection is persisted exactly when one of the two rules
fired for some record. -/
theorem C4_load_migrates (s : StoreState) (cdb : CategoriesDatabase)
    (h : s.categoriesFile = some cdb) :
    (load_categories s).1 = ⟨cdb.categories.map migrateCategorySpec⟩ ∧
      (cdb.categories.any
          (fun c => c.full_path == "" || (c.level == 0 && c.path.length > 1)) = true →
        (load_categories s).2 =
          { s with categoriesFile := some ⟨cdb.categories.map migrateCategorySpec⟩ }) ∧
      (cdb.categories.any
          (fun c => c.full_path == "" || (c.level == 0 && c.path.length > 1)) = false →
        (load_categories s).2 = s) := by
  have hmap : cdb.categories.map migrateCategory = cdb.categories.map migrateCategorySpec := by
    exact List.map_congr_left (fun c _ => migrateCategory_eq_spec c)
  have hflag : cdb.categories.any categoryNeedsMigration =
      cdb.categories.any (fun c => c.full_path == "" || (c.level == 0 && c.path.length > 1)) := by
    rfl
  by_cases hf : cdb.categories.any categoryNeedsMigration = true
  · refine ⟨?_, ?_, ?_⟩
    · simp only [load_categories, h, hf, if_true, hmap]
    · intro _
      simp only [load_categories, h, hf, if_true, hmap]
    · intro hfalse
      rw [hflag] at hf
      exact absurd hf (by simp [hfalse])
  · have hf' : cdb.categories.any categoryNeedsMigration = false := by
      simpa using hf
    refine ⟨?_, ?_, ?_⟩
    · simp only [load_categories, h, hf', Bool.false_eq_true, if_false, hmap]
    · intro htrue
      rw [hflag] at hf'
      exact absurd htrue (by simp [hf'])
    · intro _
      simp only [load_categories, h, hf', Bool.false_eq_true, if_false]

def c4catOld : Category :=
  { id := "c2", name := "B", parent_id := none, full_path := "",
    path := ["A", "B"], level := 0, note_count := 0, created_at := 1, color := none }

/-- C4 witness: the amended load migrates and persists a record with an
empty `full_path` and a stale zero `level`. -/
theorem C4_load_migrates_witness :
    (load_categories ⟨none, some ⟨[c4catOld]⟩, none⟩).1 =
      ⟨[{ c4catOld with full_path := "A → B", level := 1 }]⟩ := by
  have h := (C4_load_migrates ⟨none, some ⟨[c4catOld]⟩, none⟩ ⟨[c4catOld]⟩ rfl).1
  exact h.trans (by decide)

/-! ### Claim C1: duplicate-link detection -/

def n1 : Note :=
  { id := "n1", title := "t1", content := "c1", category_path := ["General"],
    timestamp := 0, tags := [], ai_confidence := none, position := none }

def n2 : Note :=
  { id := "n2", title := "t2", content := "c2", category_path := ["General"],
    timestamp := 0, tags := [], ai_confidence := none, position := none }

def customLink : NoteLink :=
  { id := "L1", source_id := "n1", target_id := "n2", link_type := .Custom "a",
    label := none, color := none, directional := none, created_at := 0 }

def customLinkStore : StoreState := ⟨some ⟨[n1, n2]⟩, none, some ⟨[customLink]⟩⟩

/-- C1 counterexample: the code compares link types with
`std::mem::discriminant`, which ignores the `Custom` payload.  With only
a `Custom "a"` link stored between the pair, creating a `Custom "b"` link —
a different type under the claim's by-string comparison — nevertheless
fails with `DuplicateLink`. -/
theorem C1_counterexample :
    (create_note_link_with_options "n1" "n2" "b" none none none "L2" 0
        customLinkStore).1 =
      .error "Link of this type already exists between these notes" ∧
      parseLinkType "b" ≠ customLink.link_type := by
  exact ⟨rfl, by decide⟩

/-- C1 (amended): with both endpoint notes present, link creation fails
with `DuplicateLink` if and only if an already-stored link has the same
link-type VARIANT as the requested one — `Custom` variants all identified
with one another regardless of their string — between the same unordered
pair of note ids. -/
theorem C1_duplicate_link_iff (source_id target_id link_type : String)
    (label : Option String) (color : Option String) (directional : Option Bool)
    (newId : String) (now : Int) (s : StoreState)
    (hs : ((load_notes s).1.notes.any (fun n => n.id == source_id)) = true)
    (ht : ((load_notes s).1.notes.any (fun n => n.id == target_id)) = true) :
    ((create_note_link_with_options source_id target_id link_type label color
          directional newId now s).1 =
        .error "Link of this type already exists between these notes") ↔
      ∃ l ∈ (load_links (load_notes s).2).1.links,
        ((l.source_id = source_id ∧ l.target_id = target_id) ∨
          (l.source_id = target_id ∧ l.target_id = source_id)) ∧
        sameVariant l.link_type (parseLinkType link_type) = true := by
  by_cases hdup : (load_links (load_notes s).2).1.links.any (fun l =>
      ((l.source_id == source_id && l.target_id == target_id) ||
        (l.source_id == target_id && l.target_id == source_id)) &&
      sameVariant l.link_type (parseLinkType link_type)) = true
  · constructor
    · intro _
      rcases List.any_eq_true.mp hdup with ⟨l, hl, hp⟩
      refine ⟨l, hl, ?_⟩
      simp only [Bool.and_eq_true, Bool.or_eq_true, beq_iff_eq] at hp
      exact ⟨by tauto, hp.2⟩
    · intro _
      simp only [create_note_link_with_options, hs, ht, Bool.not_true,
        Bool.false_eq_true, if_false, hdup, if_true]
  · have hdup' : (load_links (load_notes s).2).1.links.any (fun l =>
        ((l.source_id == source_id && l.target_id == target_id) ||
          (l.source_id == target_id && l.target_id == source_id)) &&
        sameVariant l.link_type (parseLinkType link_type)) = false := by
      simpa using hdup
    constructor
    · intro hres
      exfalso
      simp only [create_note_link_with_options, hs, ht, Bool.not_true,
        Bool.false_eq_true, if_false, hdup', if_false] at hres
      exact Except.noConfusion hres
    · rintro ⟨l, hl, hpair, hsv⟩
      exfalso
      have hmem : (((l.source_id == source_id && l.target_id == target_id) ||
          (l.source_id == target_id && l.target_id == source_id)) &&
          sameVariant l.link_type (parseLinkType link_type)) = true := by
        rcases hpair with ⟨h1, h2⟩ | ⟨h1, h2⟩ <;> simp [h1, h2, hsv]
      have hany : ((load_links (load_notes s).2).1.links.any (fun l =>
          ((l.source_id == source_id && l.target_id == target_id) ||
            (l.source_id == target_id && l.target_id == source_id)) &&
          sameVariant l.link_type (parseLinkType link_type))) = true :=
        List.any_eq_true.mpr ⟨l, hl, hmem⟩
      rw [hdup'] at hany
      exact Bool.noConfusion hany

def relLink : NoteLink :=
  { id := "L1", source_id := "n1", target_id := "n2", link_type := .Related,
    label := none, color := none, directional := none, created_at := 0 }

def relLinkStore : StoreState := ⟨some ⟨[n1, n2]⟩, none, some ⟨[relLink]⟩⟩

/-- C1 witness: the specification's own example — after (n1, n2, Related)
is stored, creating (n2, n1, Related) fails with `DuplicateLink` and
creating (n1, n2, Reference) does not. -/
theorem C1_duplicate_link_iff_witness :
    (create_note_link_with_options "n2" "n1" "Related" none none none "L2" 0
        relLinkStore).1 =
      .error "Link of this type already exists between these notes" ∧
      ¬((create_note_link_with_options "n1" "n2" "Reference" none none none "L2" 0
          relLinkStore).1 =
        .error "Link of this type already exists between these notes") := by
  constructor
  · exact (C1_duplicate_link_iff "n2" "n1" "Related" none none none "L2" 0
      relLinkStore (by decide) (by decide)).mpr ⟨relLink, by decide, by decide, by decide⟩
  · intro h
    have := (C1_duplicate_link_iff "n1" "n2" "Reference" none none none "L2" 0
      relLinkStore (by decide) (by decide)).mp h
    exact absurd this (by decide)

/-! ### Recount machinery (shared by the delete and recount claims) -/

theorem load_categories_fst (s : StoreState) (cdb : CategoriesDatabase)
    (h : s.categoriesFile = some cdb) :
    (load_categories s).1 = ⟨cdb.categories.map migrateCategory⟩ := by
  unfold load_categories
  rw [h]
  by_cases hf : cdb.categories.any categoryNeedsMigration = true
  · simp [hf]
  · simp [hf]

theorem load_categories_frame (s : StoreState) :
    (load_categories s).2.notesFile = s.notesFile ∧
      (load_categories s).2.linksFile = s.linksFile := by
  unfold load_categories
  match h : s.categoriesFile with
  | none => exact ⟨rfl, rfl⟩
  | some db =>
    by_cases hf : db.categories.any categoryNeedsMigration = true
    · simp [hf]
    · simp [hf]

theorem migrateCategory_idem (c : Category) :
    migrateCategory (migrateCategory c) = migrateCategory c := by
  rw [migrateCategory_eq_spec, migrateCategory_eq_spec]
  cases c with
  | mk id name parent_id full_path path level note_count created_at color =>
    simp only [migrateCategorySpec]
    by_cases h1 : full_path = "" <;> by_cases h2 : level = 0 ∧ path.length > 1 <;>
      by_cases h3 : joinArrow path = "" <;>
      simp [h1, h2, h3]

/-- Mapping a function that fixes every member of a list is the
identity on that list. -/
theorem list_map_id_of_mem {α : Type} (l : List α) (f : α → α)
    (h : ∀ a ∈ l, f a = a) : l.map f = l := by
  induction l with
  | nil => rfl
  | cons a t ih =>
    rw [List.map_cons, h a (List.mem_cons_self a t),
      ih (fun x hx => h x (List.mem_cons_of_mem a hx))]

/-- The count every category receives from
`update_category_note_counts`: the number of notes whose path the
category's path prefixes. -/
def recountFix (notes : List Note) (c : Category) : Category :=
  { c with note_count := notes.countP (fun n => c.path.isPrefixOf n.category_path) }

theorem foldl_bumpCounts (notes : List Note) (cats : List Category) :
    notes.foldl bumpCounts cats =
      cats.map (fun c =>
        { c with note_count :=
            c.note_count + notes.countP (fun n => c.path.isPrefixOf n.category_path) }) := by
  induction notes generalizing cats with
  | nil =>
    have he : (fun c : Category =>
        { c with note_count :=
            c.note_count +
              List.countP (fun n : Note => c.path.isPrefixOf n.category_path) [] }) =
        fun c : Category => c := by
      funext c
      rfl
    rw [List.foldl_nil, he, List.map_id']
  | cons n ns ih =>
    rw [List.foldl_cons, ih]
    unfold bumpCounts
    rw [List.map_map]
    apply List.map_congr_left
    intro c _
    have hrec : ∀ a b : Nat, a = b →
        ({ c with note_count := a } : Category) = { c with note_count := b } := by
      intro a b h
      rw [h]
    by_cases hp : c.path.isPrefixOf n.category_path = true
    · simp only [Function.comp_apply, if_pos hp]
      refine hrec _ _ ?_
      rw [List.countP_cons]
      simp only [hp, if_pos]
      omega
    · simp only [Function.comp_apply, if_neg hp]
      refine hrec _ _ ?_
      rw [List.countP_cons]
      rw [Bool.not_eq_true] at hp
      simp only [hp, Bool.false_eq_true, if_false]
      omega

/-- Characterization of `update_category_note_counts` on a store whose
notes file exists: it succeeds and persists the loaded categories with
every count recomputed as the number of prefix-matching notes. -/
theorem recount_spec (s : StoreState) (ndb : NotesDatabase) (h : s.notesFile = some ndb) :
    (update_category_note_counts s).1 = .ok () ∧
      (update_category_note_counts s).2 =
        ⟨(load_categories s).2.notesFile,
         some ⟨(load_categories s).1.categories.map (recountFix ndb.notes)⟩,
         (load_categories s).2.linksFile⟩ := by
  unfold update_category_note_counts
  rw [h]
  refine ⟨rfl, ?_⟩
  show (⟨(load_categories s).2.notesFile,
    some ⟨ndb.notes.foldl bumpCounts
      ((load_categories s).1.categories.map (fun c => { c with note_count := 0 }))⟩,
    (load_categories s).2.linksFile⟩ : StoreState) = _
  rw [foldl_bumpCounts, List.map_map]
  have hco : ((fun c : Category =>
      { c with note_count :=
          c.note_count + ndb.notes.countP (fun n => c.path.isPrefixOf n.category_path) }) ∘
      (fun c : Category => { c with note_count := 0 })) = recountFix ndb.notes := by
    funext c
    simp [Function.comp, recountFix]
  rw [hco]

theorem recountFix_id_path (notes : List Note) (c : Category) :
    (recountFix notes c).id = c.id ∧ (recountFix notes c).path = c.path :=
  ⟨rfl, rfl⟩

/-! ### Claim C7: recount correctness -/

/-- C7: after `recount_notes` (`update_category_note_counts`) on a store
whose notes file exists, every persisted category has `note_count` equal
to the number of notes whose `category_path` has the category path as a
prefix (descendant notes included), the persisted collection carrying the
same ids and paths as the loaded one. -/
theorem C7_recount_counts (s : StoreState) (ndb : NotesDatabase)
    (h : s.notesFile = some ndb) :
    (update_category_note_counts s).1 = .ok () ∧
      ∃ catsF, (update_category_note_counts s).2.categoriesFile = some ⟨catsF⟩ ∧
        catsF.map (fun c => (c.id, c.path)) =
          (load_categories s).1.categories.map (fun c => (c.id, c.path)) ∧
        ∀ c ∈ catsF,
          c.note_count = ndb.notes.countP (fun n => c.path.isPrefixOf n.category_path) := by
  obtain ⟨h1, h2⟩ := recount_spec s ndb h
  refine ⟨h1, (load_categories s).1.categories.map (recountFix ndb.notes), ?_, ?_, ?_⟩
  · rw [h2]
  · rw [List.map_map]
    rfl
  · intro c hc
    rcases List.mem_map.mp hc with ⟨a, -, rfl⟩
    rfl

def c7cat : Category :=
  { id := "c", name := "A", parent_id := none, full_path := "A", path := ["A"],
    level := 0, note_count := 0, created_at := 1, color := none }

def c7noteDeep : Note :=
  { id := "nd", title := "t", content := "c", category_path := ["A", "B"],
    timestamp := 0, tags := [], ai_confidence := none, position := none }

def c7noteOther : Note :=
  { id := "no", title := "t", content := "c", category_path := ["X"],
    timestamp := 0, tags := [], ai_confidence := none, position := none }

/-- C7 witness: recounting a concrete store counts the descendant note
and not the unrelated one. -/
theorem C7_recount_counts_witness :
    (update_category_note_counts ⟨some ⟨[c7noteDeep, c7noteOther]⟩, some ⟨[c7cat]⟩, none⟩).1 =
      .ok () ∧
      (update_category_note_counts
          ⟨some ⟨[c7noteDeep, c7noteOther]⟩, some ⟨[c7cat]⟩, none⟩).2.categoriesFile =
        some ⟨[{ c7cat with note_count := 1 }]⟩ := by
  refine ⟨(C7_recount_counts ⟨some ⟨[c7noteDeep, c7noteOther]⟩, some ⟨[c7cat]⟩, none⟩
    ⟨[c7noteDeep, c7noteOther]⟩ rfl).1, by rfl⟩

/-! ### Claim C6: cascading category delete -/

/-- C6: deleting a category by id (on a store whose notes file exists)
fails with `NotFound` when no loaded category carries the id; otherwise
it removes exactly the categories whose path has the target path as a
prefix and exactly the notes whose `category_path` has the target path
as a prefix, persists both collections, and recounts every remaining
category against the remaining notes. -/
theorem C6_delete (category_id : String) (s : StoreState)
    (cdb : CategoriesDatabase) (ndb : NotesDatabase)
    (hc : s.categoriesFile = some cdb) (hn : s.notesFile = some ndb) :
    ((cdb.categories.map migrateCategory).find? (fun c => c.id == category_id) = none →
      (safe_delete_category category_id s).1 = .error "Category not found") ∧
    (∀ target,
      (cdb.categories.map migrateCategory).find? (fun c => c.id == category_id) =
          some target →
      (safe_delete_category category_id s).1 = .ok () ∧
      (safe_delete_category category_id s).2.notesFile =
        some ⟨ndb.notes.filter (fun n => !(target.path.isPrefixOf n.category_path))⟩ ∧
      ∃ catsF, (safe_delete_category category_id s).2.categoriesFile = some ⟨catsF⟩ ∧
        catsF.map (fun c => (c.id, c.path)) =
          ((cdb.categories.map migrateCategory).filter
            (fun c => !(target.path.isPrefixOf c.path))).map (fun c => (c.id, c.path)) ∧
        ∀ c ∈ catsF, c.note_count =
          (ndb.notes.filter
            (fun n => !(target.path.isPrefixOf n.category_path))).countP
            (fun n => c.path.isPrefixOf n.category_path)) := by
  have h1 := load_categories_fst s cdb hc
  have h2 := (load_categories_frame s).1
  constructor
  · intro hfind
    simp only [safe_delete_category, h2, hn, h1, hfind]
  · intro target hfind
    have hdel : safe_delete_category category_id s =
        update_category_note_counts
          ⟨some ⟨ndb.notes.filter (fun n => !(target.path.isPrefixOf n.category_path))⟩,
           some ⟨(cdb.categories.map migrateCategory).filter
             (fun c => !(target.path.isPrefixOf c.path))⟩,
           (load_categories s).2.linksFile⟩ := by
      simp only [safe_delete_category, h2, hn, h1, hfind]
    obtain ⟨r1, r2⟩ := recount_spec
      ⟨some ⟨ndb.notes.filter (fun n => !(target.path.isPrefixOf n.category_path))⟩,
       some ⟨(cdb.categories.map migrateCategory).filter
         (fun c => !(target.path.isPrefixOf c.path))⟩,
       (load_categories s).2.linksFile⟩
      ⟨ndb.notes.filter (fun n => !(target.path.isPrefixOf n.category_path))⟩ rfl
    have h3 := load_categories_fst
      ⟨some ⟨ndb.notes.filter (fun n => !(target.path.isPrefixOf n.category_path))⟩,
       some ⟨(cdb.categories.map migrateCategory).filter
         (fun c => !(target.path.isPrefixOf c.path))⟩,
       (load_categories s).2.linksFile⟩
      ⟨(cdb.categories.map migrateCategory).filter
        (fun c => !(target.path.isPrefixOf c.path))⟩ rfl
    have hfix : ((cdb.categories.map migrateCategory).filter
        (fun c => !(target.path.isPrefixOf c.path))).map migrateCategory =
        (cdb.categories.map migrateCategory).filter
          (fun c => !(target.path.isPrefixOf c.path)) := by
      apply list_map_id_of_mem
      intro c hcin
      rcases List.mem_map.mp (List.mem_of_mem_filter hcin) with ⟨a, -, rfl⟩
      exact migrateCategory_idem a
    refine ⟨by rw [hdel, r1], ?_, ?_⟩
    · rw [hdel, r2]
      show (load_categories _).2.notesFile = _
      rw [(load_categories_frame _).1]
    · rw [hdel, r2]
      rw [h3] at r2 ⊢
      rw [hfix]
      refine ⟨_, rfl, ?_, ?_⟩
      · rw [List.map_map]
        rfl
      · intro c hcin
        rcases List.mem_map.mp hcin with ⟨a, -, rfl⟩
        rfl

def c6catA : Category :=
  { id := "ca", name := "A", parent_id := none, full_path := "A", path := ["A"],
    level := 0, note_count := 0, created_at := 1, color := none }

def c6catAB : Category :=
  { id := "cab", name := "B", parent_id := some "ca", full_path := "A → B",
    path := ["A", "B"], level := 1, note_count := 0, created_at := 1, color := none }

def c6catABC : Category :=
  { id := "cabc", name := "C", parent_id := some "cab", full_path := "A → B → C",
    path := ["A", "B", "C"], level := 2, note_count := 0, created_at := 1, color := none }

def c6noteAB : Note :=
  { id := "nab", title := "t", content := "c", category_path := ["A", "B"],
    timestamp := 0, tags := [], ai_confidence := none, position := none }

def c6noteA : Note :=
  { id := "na", title := "t", content := "c", category_path := ["A"],
    timestamp := 0, tags := [], ai_confidence := none, position := none }

def c6store : StoreState :=
  ⟨some ⟨[c6noteAB, c6noteA]⟩, some ⟨[c6catA, c6catAB, c6catABC]⟩, none⟩

/-- C6 witness: deleting the category at `["A","B"]` removes `["A","B"]`
and `["A","B","C"]` but not `["A"]`, removes the note under `["A","B"]`
but not the note at `["A"]`, and recounts. -/
theorem C6_delete_witness :
    (safe_delete_category "cab" c6store).1 = .ok () ∧
      (safe_delete_category "cab" c6store).2.notesFile = some ⟨[c6noteA]⟩ ∧
      (safe_delete_category "cab" c6store).2.categoriesFile =
        some ⟨[{ c6catA with note_count := 1 }]⟩ := by
  obtain ⟨-, hres⟩ := C6_delete "cab" c6store ⟨[c6catA, c6catAB, c6catABC]⟩
    ⟨[c6noteAB, c6noteA]⟩ rfl rfl
  obtain ⟨r1, r2, -⟩ := hres c6catAB (by rfl)
  refine ⟨r1, ?_, by rfl⟩
  rw [r2]
  rfl

/-! ### Claim C8: category-creation validation -/

theorem take_append_len {α : Type} (l : List α) (x : α) :
    (l ++ [x]).take l.length = l := by
  induction l with
  | nil => rfl
  | cons a t ih => simp [List.take_succ_cons, ih]

def c8catOld : Category :=
  { id := "c8", name := "A", parent_id := none, full_path := "", path := ["A"],
    level := 0, note_count := 0, created_at := 1, color := none }

/-- C8 counterexample: on a failing creation the stored category
collection is NOT left unchanged — `load_categories` runs first and
persists its `full_path`/`level` migration before the validation error
aborts the creation.  Starting from a stored category with an empty
`full_path`, creating under a missing parent fails with `ParentNotFound`
yet the stored collection has changed. -/
theorem C8_counterexample :
    (create_category_safe "X" (some ["Missing"]) "id9" 9 ⟨none, some ⟨[c8catOld]⟩, none⟩).1 =
      .error "Parent category does not exist" ∧
      (create_category_safe "X" (some ["Missing"]) "id9" 9
          ⟨none, some ⟨[c8catOld]⟩, none⟩).2.categoriesFile ≠ some ⟨[c8catOld]⟩ := by
  exact ⟨rfl, by decide⟩

/-- C8 (amended): category creation fails with `ParentNotFound` when the
parent path is non-empty and no loaded category has exactly that path;
otherwise it fails with `DuplicatePath` when a loaded category already
has the resulting path; in either failure case no category is added and
the store is exactly the post-load store — the note and link collections
untouched, but the load-time category migration may already have been
persisted. -/
theorem C8_create_checks (name : String) (parent_path : Option (List String))
    (newId : String) (now : Int) (s : StoreState) :
    (((parent_path.getD []) ≠ [] ∧
        ∀ c ∈ (load_categories s).1.categories, c.path ≠ parent_path.getD []) →
      (create_category_safe name parent_path newId now s).1 =
          .error "Parent category does not exist" ∧
        (create_category_safe name parent_path newId now s).2 = (load_categories s).2) ∧
    (((parent_path.getD []) = [] ∨
        ∃ c ∈ (load_categories s).1.categories, c.path = parent_path.getD []) →
      (∃ c ∈ (load_categories s).1.categories, c.path = (parent_path.getD []) ++ [name]) →
      (create_category_safe name parent_path newId now s).1 =
          .error "Category with path already exists" ∧
        (create_category_safe name parent_path newId now s).2 = (load_categories s).2) ∧
    ((load_categories s).2.notesFile = s.notesFile ∧
      (load_categories s).2.linksFile = s.linksFile) := by
  have htake : ((parent_path.getD []) ++ [name]).take
      (((parent_path.getD []) ++ [name]).length - 1) = parent_path.getD [] := by
    simp [take_append_len]
  refine ⟨?_, ?_, load_categories_frame s⟩
  · rintro ⟨hpp, hnone⟩
    have hlen : ((parent_path.getD []) ++ [name]).length > 1 := by
      cases hp : parent_path.getD [] with
      | nil => exact absurd hp hpp
      | cons a t => simp
    have hany : ((load_categories s).1.categories.any (fun c =>
        c.path == ((parent_path.getD []) ++ [name]).take
          (((parent_path.getD []) ++ [name]).length - 1))) = false := by
      rw [htake]
      apply List.any_eq_false.mpr
      intro c hc
      simp [hnone c hc]
    have hcond : (decide (((parent_path.getD []) ++ [name]).length > 1) &&
        !((load_categories s).1.categories.any (fun c =>
          c.path == ((parent_path.getD []) ++ [name]).take
            (((parent_path.getD []) ++ [name]).length - 1)))) = true := by
      rw [hany]
      simp only [Bool.not_false, Bool.and_true, decide_eq_true_eq]
      exact hlen
    have hres : create_category_safe name parent_path newId now s =
        (.error "Parent category does not exist", (load_categories s).2) := by
      simp only [create_category_safe]
      rw [if_pos hcond]
    exact ⟨by rw [hres], by rw [hres]⟩
  · intro hpar hdup
    have hcond1 : (decide (((parent_path.getD []) ++ [name]).length > 1) &&
        !((load_categories s).1.categories.any (fun c =>
          c.path == ((parent_path.getD []) ++ [name]).take
            (((parent_path.getD []) ++ [name]).length - 1)))) = false := by
      rcases hpar with hnil | ⟨c, hc, hcp⟩
      · rw [hnil]
        simp
      · have : ((load_categories s).1.categories.any (fun a =>
            a.path == ((parent_path.getD []) ++ [name]).take
              (((parent_path.getD []) ++ [name]).length - 1))) = true := by
          rw [htake]
          exact List.any_eq_true.mpr ⟨c, hc, by simp [hcp]⟩
        rw [this]
        simp
    have hcond2 : ((load_categories s).1.categories.any
        (fun c => c.path == (parent_path.getD []) ++ [name])) = true := by
      rcases hdup with ⟨c, hc, hcp⟩
      exact List.any_eq_true.mpr ⟨c, hc, by simp [hcp]⟩
    have hres : create_category_safe name parent_path newId now s =
        (.error "Category with path already exists", (load_categories s).2) := by
      simp only [create_category_safe]
      rw [hcond1]
      simp only [Bool.false_eq_true, if_false]
      rw [if_pos hcond2]
    exact ⟨by rw [hres], by rw [hres]⟩

def c8catA : Category :=
  { id := "c8a", name := "A", parent_id := none, full_path := "A", path := ["A"],
    level := 0, note_count := 0, created_at := 1, color := none }

/-- C8 witness: the amended checks at concrete stores — a missing parent
and a duplicate path. -/
theorem C8_create_checks_witness :
    (create_category_safe "X" (some ["Missing"]) "id1" 0 ⟨none, some ⟨[c8catA]⟩, none⟩).1 =
      .error "Parent category does not exist" ∧
      (create_category_safe "A" none "id2" 0 ⟨none, some ⟨[c8catA]⟩, none⟩).1 =
        .error "Category with path already exists" := by
  constructor
  · exact ((C8_create_checks "X" (some ["Missing"]) "id1" 0
      ⟨none, some ⟨[c8catA]⟩, none⟩).1 ⟨by decide, by decide⟩).1
  · exact ((C8_create_checks "A" none "id2" 0 ⟨none, some ⟨[c8catA]⟩, none⟩).2.1
      (Or.inl rfl) ⟨c8catA, by decide, by decide⟩).1

/-! ### Claim C10: note-update frame -/

theorem load_notes_fst (s : StoreState) (ndb : NotesDatabase) (h : s.notesFile = some ndb) :
    (load_notes s).1 = ⟨ndb.notes.map backfillNote⟩ := by
  unfold load_notes
  rw [h]
  by_cases hf : ndb.notes.any (fun n => n.title == "") = true
  · simp [hf]
  · simp [hf]

theorem load_notes_frame (s : StoreState) :
    (load_notes s).2.categoriesFile = s.categoriesFile ∧
      (load_notes s).2.linksFile = s.linksFile := by
  unfold load_notes
  match h : s.notesFile with
  | none => exact ⟨rfl, rfl⟩
  | some db =>
    by_cases hf : db.notes.any (fun n => n.title == "") = true
    · simp [hf]
    · simp [hf]

theorem recount_keeps_notes (s2 : StoreState) (nl : List Note)
    (h : s2.notesFile = some ⟨nl⟩) :
    (update_category_note_counts s2).1 = .ok () ∧
      (update_category_note_counts s2).2.notesFile = some ⟨nl⟩ := by
  obtain ⟨r1, r2⟩ := recount_spec s2 ⟨nl⟩ h
  refine ⟨r1, ?_⟩
  rw [r2]
  show (load_categories s2).2.notesFile = some ⟨nl⟩
  rw [(load_categories_frame s2).1, h]

def c10n1 : Note :=
  { id := "m1", title := "", content := "x", category_path := ["G"],
    timestamp := 0, tags := [], ai_confidence := none, position := none }

def c10n2 : Note :=
  { id := "m2", title := "t2", content := "c2", category_path := ["G"],
    timestamp := 0, tags := [], ai_confidence := none, position := none }

def c10store : StoreState := ⟨some ⟨[c10n1, c10n2]⟩, none, none⟩

def noAi : String → Option String := fun _ => none

/-- C10 counterexample: updating note `m2` also changes the OTHER note
`m1` — `load_notes` backfills the empty stored title of `m1` from its
content and that backfill is persisted with the update, so not every
other note in the collection is unchanged. -/
theorem C10_counterexample :
    (update_note_with_title noAi "m2" "new content" (some "T") c10store).1 =
      .ok { c10n2 with content := "new content", title := "T" } ∧
      (update_note_with_title noAi "m2" "new content" (some "T") c10store).2.notesFile =
        some ⟨[{ c10n1 with title := "x" },
               { c10n2 with content := "new content", title := "T" }]⟩ ∧
      c10n1.title ≠ "x" := by
  exact ⟨rfl, rfl, by decide⟩

/-- C10 (amended): updating a note (with or without a supplied title)
changes only that note's content and title — its id, `category_path`,
timestamp, tags, `ai_confidence` and position are preserved — and every
other note is exactly as the load step left it: unchanged, except that a
note stored with an empty title has had it backfilled from its content
(and the backfill persisted). -/
theorem C10_update_frame (ai : String → Option String) (id content : String)
    (title : Option String) (s : StoreState) (ndb : NotesDatabase) (i : Nat)
    (hn : s.notesFile = some ndb)
    (hi : (ndb.notes.map backfillNote).findIdx? (fun n => n.id == id) = some i) :
    (∃ t, (update_note_with_title ai id content title s).1 =
        .ok { (ndb.notes.map backfillNote).getD i default with
              content := content, title := t } ∧
      (update_note_with_title ai id content title s).2.notesFile =
        some ⟨(ndb.notes.map backfillNote).set i
          { (ndb.notes.map backfillNote).getD i default with
            content := content, title := t }⟩) ∧
    (∃ t, (update_note ai id content s).1 =
        .ok { (ndb.notes.map backfillNote).getD i default with
              content := content, title := t } ∧
      (update_note ai id content s).2.notesFile =
        some ⟨(ndb.notes.map backfillNote).set i
          { (ndb.notes.map backfillNote).getD i default with
            content := content, title := t }⟩) := by
  have h1 := load_notes_fst s ndb hn
  constructor
  · obtain ⟨r1, r2⟩ := recount_keeps_notes
      ⟨some ⟨(ndb.notes.map backfillNote).set i
          { (ndb.notes.map backfillNote).getD i default with
            content := content, title := resolveUpdateTitle ai content title }⟩,
       (load_notes s).2.categoriesFile, (load_notes s).2.linksFile⟩
      ((ndb.notes.map backfillNote).set i
        { (ndb.notes.map backfillNote).getD i default with
          content := content, title := resolveUpdateTitle ai content title }) rfl
    refine ⟨resolveUpdateTitle ai content title, ?_, ?_⟩
    · simp only [update_note_with_title, h1, hi, r1]
    · simp only [update_note_with_title, h1, hi, r1, r2]
  · obtain ⟨r1, r2⟩ := recount_keeps_notes
      ⟨some ⟨(ndb.notes.map backfillNote).set i
          { (ndb.notes.map backfillNote).getD i default with
            content := content, title := resolveGeneratedTitle ai content }⟩,
       (load_notes s).2.categoriesFile, (load_notes s).2.linksFile⟩
      ((ndb.notes.map backfillNote).set i
        { (ndb.notes.map backfillNote).getD i default with
          content := content, title := resolveGeneratedTitle ai content }) rfl
    refine ⟨resolveGeneratedTitle ai content, ?_, ?_⟩
    · simp only [update_note, h1, hi, r1]
    · simp only [update_note, h1, hi, r1, r2]

/-- C10 witness: the amended frame applied to a concrete store. -/
theorem C10_update_frame_witness :
    ∃ t, (update_note_with_title noAi "m2" "c3" none c10store).1 =
      .ok { c10n2 with content := "c3", title := t } := by
  obtain ⟨⟨t, ht, -⟩, -⟩ := C10_update_frame noAi "m2" "c3" none c10store
    ⟨[c10n1, c10n2]⟩ 1 rfl (by decide)
  refine ⟨t, ?_⟩
  rw [ht]
  rfl

/-! ### Claim C5: category rename -/

theorem set_last_eq {α : Type} (l : List α) (x : α) (h : l ≠ []) :
    l.set (l.length - 1) x = l.dropLast ++ [x] := by
  induction l with
  | nil => exact absurd rfl h
  | cons a t ih =>
    cases t with
    | nil => rfl
    | cons b u =>
      have hlen : (a :: b :: u).length - 1 = ((b :: u).length - 1) + 1 := by
        simp
      rw [hlen]
      show a :: ((b :: u).set ((b :: u).length - 1) x) = (a :: b :: u).dropLast ++ [x]
      rw [ih (by simp)]
      rfl

/-- Claim C5's prefix-replacement rule: a path with the old path as a
prefix gets that prefix replaced by the new path, suffix preserved; any
other path is untouched. -/
def renamePathSpec (old_path new_path p : List String) : List String :=
  if old_path.isPrefixOf p then new_path ++ p.drop old_path.length else p

def c5cat : Category :=
  { id := "c1", name := "B", parent_id := none, full_path := "A → B",
    path := ["A", "B"], level := 1, note_count := 0, created_at := 1, color := none }

def c5note : Note :=
  { id := "nx", title := "", content := "x", category_path := ["X"],
    timestamp := 0, tags := [], ai_confidence := none, position := none }

def c5store : StoreState := ⟨some ⟨[c5note]⟩, some ⟨[c5cat]⟩, none⟩

/-- C5 counterexample: renaming the category at `["A","B"]` to `B2`
changes the unrelated note at `["X"]` — `load_notes` backfills its empty
stored title from its content and the rename persists that change, so
not every note outside the renamed subtree is left unchanged. -/
theorem C5_counterexample :
    (rename_category "c1" "B2" c5store).1 = .ok () ∧
      (rename_category "c1" "B2" c5store).2.notesFile =
        some ⟨[{ c5note with title := "x" }]⟩ ∧
      (["A", "B"] : List String).isPrefixOf ["X"] = false ∧
      { c5note with title := "x" } ≠ c5note := by
  exact ⟨rfl, rfl, rfl, by decide⟩

/-- C5 (amended): renaming a category (found by id, with a non-empty
path, on a store where no other category shares its path) replaces the
last segment of its path with the new name; every category whose path
has the old path as a prefix gets the old-path prefix replaced by the
new path (suffix preserved) with its cached `full_path` rejoined, and
every loaded note's `category_path` is rewritten by the same
prefix-replacement rule; a category whose path does not extend the old
path is unchanged, a note outside the subtree is exactly as the load
step left it (unchanged except for empty-title backfill); both
collections are persisted and the link collection is untouched. -/
theorem C5_rename (category_id new_name : String) (s : StoreState)
    (cdb : CategoriesDatabase) (ndb : NotesDatabase) (mcats : List Category)
    (i : Nat) (target : Category)
    (hc : s.categoriesFile = some cdb)
    (hn : s.notesFile = some ndb)
    (hm : cdb.categories.map migrateCategory = mcats)
    (hi : mcats.findIdx? (fun c => c.id == category_id) = some i)
    (ht : mcats[i]? = some target)
    (hne : target.path ≠ [])
    (hu : ∀ k, k < mcats.length → (mcats.getD k default).path = target.path → k = i) :
    (rename_category category_id new_name s).1 = .ok () ∧
      (rename_category category_id new_name s).2.linksFile = s.linksFile ∧
      (rename_category category_id new_name s).2.notesFile =
        some ⟨(ndb.notes.map backfillNote).map (fun n =>
          { n with category_path := renamePathSpec target.path (target.path.dropLast ++ [new_name]) n.category_path })⟩ ∧
      ∃ catsR, (rename_category category_id new_name s).2.categoriesFile =
          some ⟨catsR⟩ ∧
        catsR.length = mcats.length ∧
        ∀ k c, mcats[k]? = some c →
          (k = i → catsR[k]? = some
            { c with
              name := new_name,
              path := target.path.dropLast ++ [new_name],
              full_path := joinArrow (target.path.dropLast ++ [new_name]) }) ∧
          (k ≠ i → target.path.isPrefixOf c.path = true → catsR[k]? = some
            { c with
              path := (target.path.dropLast ++ [new_name]) ++ c.path.drop target.path.length,
              full_path := joinArrow ((target.path.dropLast ++ [new_name]) ++ c.path.drop target.path.length) }) ∧
          (target.path.isPrefixOf c.path = false → catsR[k]? = some c) := by
  have hilt : i < mcats.length := (List.findIdx?_eq_some_iff_findIdx_eq.mp hi).1
  have h1 : (load_categories s).1 = ⟨mcats⟩ := by
    rw [load_categories_fst s cdb hc, hm]
  have h2 : (load_notes (load_categories s).2).1 = ⟨ndb.notes.map backfillNote⟩ :=
    load_notes_fst _ ndb (by rw [(load_categories_frame s).1, hn])
  have hlinks : (load_notes (load_categories s).2).2.linksFile = s.linksFile := by
    rw [(load_notes_frame _).2, (load_categories_frame s).2]
  have htD : mcats.getD i default = target := by
    rw [List.getD_eq_getElem?_getD, ht]
    rfl
  have hnp : target.path.set (target.path.length - 1) new_name =
      target.path.dropLast ++ [new_name] := set_last_eq _ _ hne
  have hnplen : (target.path.dropLast ++ [new_name]).length = target.path.length := by
    have := List.length_pos.mpr hne
    simp [List.length_dropLast]
    omega
  refine ⟨?_, ?_, ?_, ?_⟩
  · simp only [rename_category, h1, h2, hi]
  · simp only [rename_category, h1, h2, hi]
    exact hlinks
  · simp only [rename_category, h1, h2, hi]
    rw [htD, hnp]
    show some (NotesDatabase.mk _) = some (NotesDatabase.mk _)
    refine congrArg _ (congrArg _ ?_)
    apply List.map_congr_left
    intro n _
    by_cases hb : target.path.isPrefixOf n.category_path = true
    · simp [renamePathSpec, hb]
    · rw [Bool.not_eq_true] at hb
      simp only [renamePathSpec, hb, Bool.false_eq_true, if_false]
  · simp only [rename_category, h1, h2, hi]
    rw [htD, hnp]
    refine ⟨_, rfl, ?_, ?_⟩
    · simp
    · intro k c hk
      have hklt : k < mcats.length := by
        by_contra hge
        rw [List.getElem?_eq_none (Nat.le_of_not_lt hge)] at hk
        exact Option.noConfusion hk
      have hgd : mcats.getD k default = c := by
        rw [List.getD_eq_getElem?_getD, hk]
        rfl
      refine ⟨?_, ?_, ?_⟩
      · intro hk_eq
        subst hk_eq
        have hceq : c = target := by
          rw [ht] at hk
          exact (Option.some.inj hk).symm
        subst hceq
        rw [List.getElem?_map, List.getElem?_set_self hilt]
        have hcond : ¬((c.path.isPrefixOf (c.path.dropLast ++ [new_name]) &&
            decide (c.path.length < (c.path.dropLast ++ [new_name]).length)) = true) := by
          simp only [Bool.and_eq_true, decide_eq_true_eq]
          rintro ⟨-, hlt⟩
          rw [hnplen] at hlt
          exact Nat.lt_irrefl _ hlt
        show some (if (c.path.isPrefixOf (c.path.dropLast ++ [new_name]) &&
            decide (c.path.length < (c.path.dropLast ++ [new_name]).length)) = true
          then _ else _) = _
        rw [if_neg hcond]
      · intro hk_ne hb
        rw [List.getElem?_map, List.getElem?_set_ne (fun h => hk_ne h.symm), hk]
        have hpre := List.isPrefixOf_iff_prefix.mp hb
        have hne2 : c.path ≠ target.path := fun hcp =>
          hk_ne (hu k hklt (by rw [hgd]; exact hcp))
        have hlt : target.path.length < c.path.length := by
          rcases Nat.lt_or_ge target.path.length c.path.length with hx | hx
          · exact hx
          · exact absurd (hpre.eq_of_length (Nat.le_antisymm hpre.length_le hx)).symm hne2
        have hcond : ((target.path.isPrefixOf c.path &&
            decide (target.path.length < c.path.length)) = true) := by
          simp only [Bool.and_eq_true, decide_eq_true_eq]
          exact ⟨hb, hlt⟩
        show some (if (target.path.isPrefixOf c.path &&
            decide (target.path.length < c.path.length)) = true then _ else _) = _
        rw [if_pos hcond]
      · intro hb
        have hk_ne : k ≠ i := by
          intro hk_eq
          subst hk_eq
          rw [ht] at hk
          have hceq : c = target := (Option.some.inj hk).symm
          subst hceq
          rw [List.isPrefixOf_iff_prefix.mpr (List.prefix_refl _)] at hb
          exact Bool.noConfusion hb
        rw [List.getElem?_map, List.getElem?_set_ne (fun h => hk_ne h.symm), hk]
        have hcond : ¬((target.path.isPrefixOf c.path &&
            decide (target.path.length < c.path.length)) = true) := by
          simp only [Bool.and_eq_true, decide_eq_true_eq]
          rintro ⟨hb2, -⟩
          rw [hb] at hb2
          exact Bool.noConfusion hb2
        show some (if (target.path.isPrefixOf c.path &&
            decide (target.path.length < c.path.length)) = true then _ else _) = _
        rw [if_neg hcond]

def c5catAB : Category :=
  { id := "r1", name := "B", parent_id := none, full_path := "A → B",
    path := ["A", "B"], level := 1, note_count := 0, created_at := 1, color := none }

def c5catABC : Category :=
  { id := "r2", name := "C", parent_id := some "r1", full_path := "A → B → C",
    path := ["A", "B", "C"], level := 2, note_count := 0, created_at := 1, color := none }

def c5noteABC : Note :=
  { id := "rn1", title := "t", content := "c", category_path := ["A", "B", "C"],
    timestamp := 0, tags := [], ai_confidence := none, position := none }

def c5noteX : Note :=
  { id := "rn2", title := "t", content := "c", category_path := ["X"],
    timestamp := 0, tags := [], ai_confidence := none, position := none }

def c5wstore : StoreState :=
  ⟨some ⟨[c5noteABC, c5noteX]⟩, some ⟨[c5catAB, c5catABC]⟩, none⟩

/-- C5 witness: the specification's own example — renaming `["A","B"]`
to `B2` rewrites the descendant category and note at `["A","B","C"]` to
`["A","B2","C"]` and leaves the unrelated note at `["X"]` untouched. -/
theorem C5_rename_witness :
    (rename_category "r1" "B2" c5wstore).1 = .ok () ∧
      (rename_category "r1" "B2" c5wstore).2.notesFile =
        some ⟨[{ c5noteABC with category_path := ["A", "B2", "C"] }, c5noteX]⟩ := by
  obtain ⟨r1, -, r3, -⟩ := C5_rename "r1" "B2" c5wstore ⟨[c5catAB, c5catABC]⟩
    ⟨[c5noteABC, c5noteX]⟩ [c5catAB, c5catABC] 0 c5catAB rfl rfl (by decide) (by decide)
    (by decide) (by decide) (by decide)
  refine ⟨r1, ?_⟩
  rw [r3]
  rfl

/-! ### Claim C9: title derivation rule -/

/-- C9 counterexample: the claim describes the rule without any trimming,
but `generate_simple_title` trims the content (and the first line) before
applying the rule.  On the content `" x"` the claim's rule returns the raw
first line `" x"`, while the code returns `"x"`. -/
theorem C9_counterexample :
    simple_title_claim " x".data ≠ generate_simple_title_chars " x".data ∧
      generate_simple_title_chars " x".data = "x".data := by
  decide

/-- C9 (amended): the simple title derivation first trims the content;
then (1) if the trimmed content begins with `Q:` and contains `\n\nA:`,
it returns the trimmed substring between `Q:` and the first `\n\nA:`,
as-is when at most 50 characters and otherwise its first 47 characters
plus `...`; (2) else the trimmed first line when that line is non-empty,
at most 60 characters, and does not start with `Q:`; (3) else the trimmed
content verbatim when at most 50 characters, and otherwise its first 50
characters truncated at the last word boundary when that boundary is past
character 30 (hard-truncated at 50 otherwise) with `...` appended. -/
theorem C9_title_rule (raw : List Char) :
    ((qMark.isPrefixOf (trimChars raw) && (findSubIdx aMark (trimChars raw)).isSome) = true →
      ∀ qe, findSubIdx aMark (trimChars raw) = some qe →
        generate_simple_title_chars raw =
          (if (trimChars (((trimChars raw).drop 2).take (qe - 2))).length ≤ 50 then
            trimChars (((trimChars raw).drop 2).take (qe - 2))
          else (trimChars (((trimChars raw).drop 2).take (qe - 2))).take 47 ++ dots)) ∧
    ((qMark.isPrefixOf (trimChars raw) && (findSubIdx aMark (trimChars raw)).isSome) = false →
      ((trimChars (firstLineOf (trimChars raw))) != [] &&
          (trimChars (firstLineOf (trimChars raw))).length ≤ 60 &&
          !(qMark.isPrefixOf (trimChars (firstLineOf (trimChars raw))))) = true →
        generate_simple_title_chars raw = trimChars (firstLineOf (trimChars raw))) ∧
    ((qMark.isPrefixOf (trimChars raw) && (findSubIdx aMark (trimChars raw)).isSome) = false →
      ((trimChars (firstLineOf (trimChars raw))) != [] &&
          (trimChars (firstLineOf (trimChars raw))).length ≤ 60 &&
          !(qMark.isPrefixOf (trimChars (firstLineOf (trimChars raw))))) = false →
      (trimChars raw).length ≤ 50 →
        generate_simple_title_chars raw = trimChars raw) ∧
    ((qMark.isPrefixOf (trimChars raw) && (findSubIdx aMark (trimChars raw)).isSome) = false →
      ((trimChars (firstLineOf (trimChars raw))) != [] &&
          (trimChars (firstLineOf (trimChars raw))).length ≤ 60 &&
          !(qMark.isPrefixOf (trimChars (firstLineOf (trimChars raw))))) = false →
      (trimChars raw).length > 50 →
      ∀ j, lastSpaceIdx ((trimChars raw).take 50) = some j →
        (j > 30 →
          generate_simple_title_chars raw = ((trimChars raw).take 50).take j ++ dots) ∧
        (j ≤ 30 →
          generate_simple_title_chars raw = (trimChars raw).take 50 ++ dots)) ∧
    ((qMark.isPrefixOf (trimChars raw) && (findSubIdx aMark (trimChars raw)).isSome) = false →
      ((trimChars (firstLineOf (trimChars raw))) != [] &&
          (trimChars (firstLineOf (trimChars raw))).length ≤ 60 &&
          !(qMark.isPrefixOf (trimChars (firstLineOf (trimChars raw))))) = false →
      (trimChars raw).length > 50 →
      lastSpaceIdx ((trimChars raw).take 50) = none →
        generate_simple_title_chars raw = (trimChars raw).take 50 ++ dots) := by
  refine ⟨?_, ?_, ?_, ?_, ?_⟩
  · intro hq qe hqe
    rw [hqe] at hq
    simp only [Option.isSome_some, Bool.and_true] at hq
    simp only [generate_simple_title_chars, hq, hqe, Option.isSome_some, Bool.and_true,
      if_true, Option.getD_some]
  · intro hq hfl
    simp only [generate_simple_title_chars, hq, hfl, Bool.false_eq_true, if_false, if_true]
  · intro hq hfl hlen
    simp only [generate_simple_title_chars, hq, hfl, Bool.false_eq_true, if_false]
    rw [if_neg (by omega)]
  · intro hq hfl hlen j hj
    constructor <;> intro hcmp <;>
      simp only [generate_simple_title_chars, hq, hfl, Bool.false_eq_true, if_false, hj] <;>
      [rw [if_pos hlen, if_pos hcmp]; rw [if_pos hlen, if_neg (by omega)]]
  · intro hq hfl hlen hj
    simp only [generate_simple_title_chars, hq, hfl, Bool.false_eq_true, if_false, hj]
    rw [if_pos hlen]

/-- C9 witness: the amended rule applied to the specification's own
example content. -/
theorem C9_title_rule_witness :
    generate_simple_title_chars "Q: How do I center a div?\n\nA: Use flexbox".data =
      "How do I center a div?".data := by
  have h := (C9_title_rule "Q: How do I center a div?\n\nA: Use flexbox".data).1
    (by decide) 25 (by decide)
  exact h.trans (by decide)

end KB
